import Mathlib

/-!
# Verification of the `consav` newton_raphson optimizer

Shallow embedding of `src/consav/newton_raphson.py` over exact rational
arithmetic.  Vectors of dimension `n` are `Fin n → ℚ`; the Hessian is a
`Matrix (Fin n) (Fin n) ℚ`.

A central point of the embedding: in the source, `num_grad` executes
`x_grad = x[:]`, which (NumPy/Numba slicing semantics) rebinds the local
name `x_grad` to a *view* of the argument array `x`, so the subsequent
write `x_grad[i] = xi + step_now` mutates `x` itself and the perturbations
accumulate across coordinates.  The embedding therefore threads the
content of the `x` buffer through the coordinate loop and returns its
final content alongside the gradient buffer.  (Contrast `num_hess`, whose
`x_hess[:] = x[:]` is an element-wise copy into the `x_hess` buffer.)
-/

namespace ConsavNR

/-- `np.fmax` on rationals: the (binary, NaN-free) maximum, written with an
explicit `if` (see `np_fmax_eq_max`). -/
def np_fmax (a b : ℚ) : ℚ := if a ≤ b then b else a

/-- `np.abs` on rationals, written with an explicit `if`
(see `np_abs_eq_abs`). -/
def np_abs (q : ℚ) : ℚ := if q < 0 then -q else q

/-- `np.fmax(grad_step*xi, grad_step)`: the per-coordinate finite-difference
step `s_i = max(h*x_i, h)` (source lines 117 and 142). -/
def step_now (grad_step xi : ℚ) : ℚ := np_fmax (grad_step * xi) grad_step

/-- `np.sign` on rationals. -/
def np_sign (q : ℚ) : ℚ := if q < 0 then -1 else if q = 0 then 0 else 1

/-- Body of `num_grad`'s `for i, xi in enumerate(x)` loop over the remaining
index list.  State `(v, g)` is the current content of the buffers named `x`
and `grad`.  Per index `i` (source lines 115–121):
`xi = v[i]`; `s = fmax(grad_step*xi, grad_step)`;
`x_grad = x[:]` rebinds `x_grad` to a view of `x` (no state change);
`x_grad[i] = xi + s` writes through the view into `x`;
`grad[i] = (obj(x_grad) - f0)/s` evaluates `obj` on the current (mutated)
content of `x`. -/
def num_gradGo {n : ℕ} (obj : (Fin n → ℚ) → ℚ) (grad_step f0 : ℚ) :
    List (Fin n) → (Fin n → ℚ) → (Fin n → ℚ) → (Fin n → ℚ) × (Fin n → ℚ)
  | [], v, g => (v, g)
  | i :: rest, v, g =>
    let xi := v i
    let s := step_now grad_step xi
    let v' := Function.update v i (xi + s)
    let g' := Function.update g i ((obj v' - f0) / s)
    num_gradGo obj grad_step f0 rest v' g'

/-- `num_grad(obj, x, grad_step, f0, grad, x_grad)` (source lines 100–121).
Returns `(final content of the x buffer, final content of the grad buffer)`.
The `x_grad` working-memory argument of the source is dead (the local name
is immediately rebound to a view of `x`), so it does not appear. -/
def num_grad {n : ℕ} (obj : (Fin n → ℚ) → ℚ) (x : Fin n → ℚ)
    (grad_step f0 : ℚ) (grad : Fin n → ℚ) : (Fin n → ℚ) × (Fin n → ℚ) :=
  num_gradGo obj grad_step f0 (List.finRange n) x grad

/-- The content of the `x` buffer after the first `k` coordinates have been
processed by `num_grad`: coordinates `< k` hold `x_j + s_j`, the rest are
untouched. -/
def pertUpTo {n : ℕ} (grad_step : ℚ) (x : Fin n → ℚ) (k : ℕ) : Fin n → ℚ :=
  fun j => if (j : ℕ) < k then x j + step_now grad_step (x j) else x j

/-- Body of `num_hess`'s `for i, xi in enumerate(x)` loop (source lines
140–149).  `x` is only read here; `x_hess[:] = x[:]` copies by value, so the
perturbed point for column `i` is `x` with only coordinate `i` bumped.  The
`grad_hess` buffer content is threaded through the nested `num_grad` calls
(the mutated `x_hess` content returned by `num_grad` is discarded: the buffer
is overwritten by the copy at the start of the next index). -/
def num_hessGo {n : ℕ} (obj : (Fin n → ℚ) → ℚ) (grad_step : ℚ)
    (x grad : Fin n → ℚ) :
    List (Fin n) → (Fin n → ℚ) → Matrix (Fin n) (Fin n) ℚ →
      (Fin n → ℚ) × Matrix (Fin n) (Fin n) ℚ
  | [], gh, H => (gh, H)
  | i :: rest, gh, H =>
    let xi := x i
    let s := step_now grad_step xi
    let xh := Function.update x i (xi + s)
    let f0 := obj xh
    let gh' := (num_grad obj xh grad_step f0 gh).2
    let H' := Matrix.of fun j k => if k = i then (gh' j - grad j) / s else H j k
    num_hessGo obj grad_step x grad rest gh' H'

/-- `num_hess(obj, x, grad_step, grad, hess, x_grad, x_hess, grad_hess)`
(source lines 124–149).  Returns `(final grad_hess content, hess)`.  The
`x_grad` and `x_hess` working buffers do not influence the outputs (x_hess is
re-copied from `x` before each use; x_grad is dead inside `num_grad`). -/
def num_hess {n : ℕ} (obj : (Fin n → ℚ) → ℚ) (x : Fin n → ℚ) (grad_step : ℚ)
    (grad grad_hess : Fin n → ℚ) (hess : Matrix (Fin n) (Fin n) ℚ) :
    (Fin n → ℚ) × Matrix (Fin n) (Fin n) ℚ :=
  num_hessGo obj grad_step x grad (List.finRange n) grad_hess hess

/-- The value `num_hess` stores at `hess[j, i]`, written in closed form
(see `num_hess_snd_apply`): with `s_i = step_now gs (x i)` and
`xh = x` bumped at `i`, the entry is `(g_pert j - grad j) / s_i` where
`g_pert` is `num_grad`'s output at `xh` with baseline `obj xh` (in closed
form via `pertUpTo`). -/
def hessCol {n : ℕ} (obj : (Fin n → ℚ) → ℚ) (grad_step : ℚ)
    (x grad : Fin n → ℚ) (j i : Fin n) : ℚ :=
  let s := step_now grad_step (x i)
  let xh := Function.update x i (x i + s)
  ((obj (pertUpTo grad_step xh ((j : ℕ) + 1)) - obj xh)
      / step_now grad_step (xh j) - grad j) / s

/-! ## The optimizer loop (source lines 29–95) -/

/-- Loop state across outer iterations: the committed content of the `x_min`
buffer at the top of an iteration and the committed `f_min`.  The remaining
buffers (`x_now`, `grad`, `grad_hess`, `hess`, `x_grad`, `x_hess`) are fully
overwritten before being read in every iteration, so their carried-over
content is irrelevant (for `grad`/`grad_hess` this is the closed-form lemma
`num_grad_snd` below); the per-iteration definitions instantiate them with
zeros. -/
structure NRState (n : ℕ) where
  x_min : Fin n → ℚ
  f_min : ℚ

variable {n : ℕ}

/-- Line 63: `num_grad(obj, x_min, grad_step, f_min, grad, x_grad)`.
Returns the pair (content of the `x_min` buffer after the call — mutated by
the view bug —, content of the `grad` buffer). -/
def iterGrad (obj : (Fin n → ℚ) → ℚ) (grad_step : ℚ) (st : NRState n) :
    (Fin n → ℚ) × (Fin n → ℚ) :=
  num_grad obj st.x_min grad_step st.f_min (fun _ => 0)

/-- Content of the `x_min` buffer after line 63 (each coordinate perturbed
in place by `num_grad`). -/
def x_min_pert (obj : (Fin n → ℚ) → ℚ) (grad_step : ℚ) (st : NRState n) :
    Fin n → ℚ :=
  (iterGrad obj grad_step st).1

/-- Content of the `grad` buffer after line 63. -/
def grad_now (obj : (Fin n → ℚ) → ℚ) (grad_step : ℚ) (st : NRState n) :
    Fin n → ℚ :=
  (iterGrad obj grad_step st).2

/-- Line 64: content of the `hess` buffer after
`num_hess(obj, x_min, grad_step, grad, hess, ...)` — note the `x_min` passed
is the buffer content, i.e. the perturbed `x_min_pert`. -/
def hess_now (obj : (Fin n → ℚ) → ℚ) (grad_step : ℚ) (st : NRState n) :
    Matrix (Fin n) (Fin n) ℚ :=
  (num_hess obj (x_min_pert obj grad_step st) grad_step
    (grad_now obj grad_step st) (fun _ => 0) 0).2

/-- Line 67: `hess_det = np.linalg.det(hess)`. -/
def hess_detv (obj : (Fin n → ℚ) → ℚ) (grad_step : ℚ) (st : NRState n) : ℚ :=
  (hess_now obj grad_step st).det

/-- `np.linalg.inv` on a nonsingular matrix: `det⁻¹ • adjugate` (the
classical inverse; only ever used under `det ≠ 0`, where it agrees with the
matrix inverse — on an exactly singular matrix the source raises
`LinAlgError`, modelled by the `Except.error` branch of `nr_step`). -/
def np_inv (A : Matrix (Fin n) (Fin n) ℚ) : Matrix (Fin n) (Fin n) ℚ :=
  A.det⁻¹ • A.adjugate

/-- Line 68: `d = - np.sign(hess_det)*(np.linalg.inv(hess) @ np.transpose(grad))`
(`np.transpose` on a 1-D array is the identity). -/
def d_dir (obj : (Fin n → ℚ) → ℚ) (grad_step : ℚ) (st : NRState n) :
    Fin n → ℚ :=
  (-(np_sign (hess_detv obj grad_step st))) •
    (np_inv (hess_now obj grad_step st)).mulVec (grad_now obj grad_step st)

/-- Line 71: `x_now[:] = x_min[:] + d` — again with the perturbed `x_min`
buffer content. -/
def x_now_of (obj : (Fin n → ℚ) → ℚ) (grad_step : ℚ) (st : NRState n) :
    Fin n → ℚ :=
  x_min_pert obj grad_step st + d_dir obj grad_step st

/-- Line 72: `f_now = obj(x_now)`. -/
def f_now_of (obj : (Fin n → ℚ) → ℚ) (grad_step : ℚ) (st : NRState n) : ℚ :=
  obj (x_now_of obj grad_step st)

/-- `np.amax(np.abs(v))`: for `n ≥ 1` this equals the maximum entry of
`|v|`; the `0` seed of the fold is absorbed since every `|v i| ≥ 0`. -/
def amax (v : Fin n → ℚ) : ℚ :=
  ((List.finRange n).map fun i => np_abs (v i)).foldr np_fmax 0

/-- Line 75: the convergence test
`np.abs(f_now-f_min) < tol_fun or np.amax(np.abs(x_now-x_min)) < tol_x or
it >= max_iter-1`, where the `x_min` buffer holds `x_min_pert` and `last`
stands for `it >= max_iter-1`. -/
def stop_check (obj : (Fin n → ℚ) → ℚ) (grad_step tol_fun tol_x : ℚ)
    (last : Bool) (st : NRState n) : Bool :=
  decide (np_abs (f_now_of obj grad_step st - st.f_min) < tol_fun) ||
    decide (amax (x_now_of obj grad_step st - x_min_pert obj grad_step st)
      < tol_x) || last

/-- Line 84: `x_step = 0.5*(x_min[:] + x_now[:])` (perturbed `x_min`
buffer). -/
def x_step_of (obj : (Fin n → ℚ) → ℚ) (grad_step : ℚ) (st : NRState n) :
    Fin n → ℚ :=
  fun j => (1/2) * (x_min_pert obj grad_step st j + x_now_of obj grad_step st j)

/-- Line 85: `f_step = obj(x_step)`. -/
def f_step_of (obj : (Fin n → ℚ) → ℚ) (grad_step : ℚ) (st : NRState n) : ℚ :=
  obj (x_step_of obj grad_step st)

/-- Lines 82–89 (the line-search block): the `(x_now, f_now)` pair after the
block, together with the number of extra objective evaluations (midpoint
probes) the block performed. -/
def ls_result (obj : (Fin n → ℚ) → ℚ) (grad_step : ℚ) (st : NRState n) :
    ((Fin n → ℚ) × ℚ) × ℕ :=
  if st.f_min ≤ f_now_of obj grad_step st then
    if f_step_of obj grad_step st < f_now_of obj grad_step st then
      ((x_step_of obj grad_step st, f_step_of obj grad_step st), 1)
    else ((x_now_of obj grad_step st, f_now_of obj grad_step st), 1)
  else ((x_now_of obj grad_step st, f_now_of obj grad_step st), 0)

/-- One outer iteration (loop body, lines 62–93).  Returns
`(state committed into x_min/f_min, whether the break was taken, probes)`;
`Except.error` models the `LinAlgError` that `np.linalg.inv` raises on an
exactly singular Hessian (line 68).  On the break path (lines 75–79) the
pre-line-search candidate `(x_now, f_now)` is committed; otherwise the
line-search result is committed by lines 91–93. -/
def nr_step (obj : (Fin n → ℚ) → ℚ) (grad_step tol_fun tol_x : ℚ)
    (last : Bool) (st : NRState n) : Except Unit (NRState n × Bool × ℕ) :=
  if hess_detv obj grad_step st = 0 then .error () else
  if stop_check obj grad_step tol_fun tol_x last st then
    .ok (⟨x_now_of obj grad_step st, f_now_of obj grad_step st⟩, true, 0)
  else
    .ok (⟨(ls_result obj grad_step st).1.1, (ls_result obj grad_step st).1.2⟩,
      false, (ls_result obj grad_step st).2)

/-- The `for it in range(max_iter)` loop (lines 60–93): `m` is the remaining
fuel (`max_iter - it`), `it` the Python loop counter.  Returns the final
state together with the number of outer iterations executed. -/
def nr_loop (obj : (Fin n → ℚ) → ℚ) (grad_step tol_fun tol_x : ℚ)
    (max_iter : ℕ) : ℕ → ℕ → NRState n → Except Unit (NRState n × ℕ)
  | 0, _, st => .ok (st, 0)
  | m + 1, it, st =>
    match nr_step obj grad_step tol_fun tol_x (decide (max_iter ≤ it + 1)) st with
    | .error e => .error e
    | .ok (st', true, _) => .ok (st', 1)
    | .ok (st', false, _) =>
      match nr_loop obj grad_step tol_fun tol_x max_iter m (it + 1) st' with
      | .error e => .error e
      | .ok (stf, c) => .ok (stf, c + 1)

/-- `newton_raphson(x0, *args)` (source lines 29–95): copy `x0` into the
fresh `x_min`, set `f_min = obj(x_min)`, run the loop, return the `x_min`
buffer.  The second component instruments the number of outer iterations
executed; `Except.error` is the propagated `LinAlgError` of a singular
Hessian. -/
def newton_raphson (obj : (Fin n → ℚ) → ℚ) (max_iter : ℕ)
    (grad_step tol_fun tol_x : ℚ) (x0 : Fin n → ℚ) :
    Except Unit ((Fin n → ℚ) × ℕ) :=
  match nr_loop obj grad_step tol_fun tol_x max_iter max_iter 0 ⟨x0, obj x0⟩ with
  | .error e => .error e
  | .ok (st, c) => .ok (st.x_min, c)

/-! ## Concrete objectives and observers used to settle individual claims

Each `fCk` is a (piecewise) rational objective exercising the code path of
claim `Ck`; the observers project the function-valued results to tuples of
rationals so that concrete equalities avoid function extensionality. -/

/-- 2-D objective `f(v) = v₀ + v₁` (for the gradient-estimator claims). -/
def fC1 : (Fin 2 → ℚ) → ℚ := fun v => v 0 + v 1

/-- 2-D objective `f(v) = v₀ * v₁ + v₀` (for the frame-effect claim on
`num_grad`). -/
def fC2 : (Fin 2 → ℚ) → ℚ := fun v => v 0 * v 1 + v 0

/-- The all-zero starting point in two dimensions. -/
def xzero2 : Fin 2 → ℚ := fun _ => 0

/-- 1-D piecewise objective for the convergence-check claim: tuned so that
the first candidate satisfies the *claimed* x-tolerance test against the
committed `x_min` while failing every test the code actually performs. -/
def fC3 : (Fin 1 → ℚ) → ℚ := fun v =>
  if v 0 = 0 then 0 else if v 0 = 1 then 3 else if v 0 = 2 then 0 else
  if v 0 = 4 then 14 else if v 0 = 1/4 then 10 else if v 0 = 5/8 then 12 else
  if v 0 = 5/4 then 11 else if v 0 = 5/2 then 0 else if v 0 = 5 then 45/8 else
  1000

/-- 1-D piecewise objective for the unconditional-commit claim: the first
iteration worsens the objective (7 > 0) and the midpoint probe fails
(9 ≥ 7), yet the iteration commits. -/
def fC4 : (Fin 1 → ℚ) → ℚ := fun v =>
  if v 0 = 0 then 0 else if v 0 = 1 then 1 else if v 0 = 2 then 0 else
  if v 0 = 4 then 5/2 else if v 0 = -3 then 7 else if v 0 = -1 then 9 else 1000

/-- 1-D piecewise objective for the line-search claim: the code's probe
point `-1` has value 9 (rejected) while the claimed midpoint `-3/2` has
value 1 (would be accepted). -/
def fC5 : (Fin 1 → ℚ) → ℚ := fun v =>
  if v 0 = 0 then 0 else if v 0 = 1 then 1 else if v 0 = 2 then 0 else
  if v 0 = 4 then 5/2 else if v 0 = -3 then 7 else if v 0 = -1 then 9 else
  if v 0 = -3/2 then 1 else 1000

/-- 2-D objective `f(v) = v₀ * v₁²` whose estimated Hessian at the origin is
visibly asymmetric. -/
def fC6 : (Fin 2 → ℚ) → ℚ := fun v => v 0 * v 1 * v 1

/-- 1-D objective `f(v) = v₀²` (for the Newton-direction claim and the
iteration-cap witness run). -/
def fsq1 : (Fin 1 → ℚ) → ℚ := fun v => v 0 * v 0

/-- The constant-zero 1-D objective: its estimated Hessian is the zero
matrix, so `np.linalg.inv` raises on the first iteration. -/
def fzero1 : (Fin 1 → ℚ) → ℚ := fun _ => 0

/-- The all-zero starting point in one dimension. -/
def xzero1 : Fin 1 → ℚ := fun _ => 0

/-- The initial loop state `(x_min, f_min) = (x0, obj x0)` for a 1-D run
started at the origin. -/
def st0 (obj : (Fin 1 → ℚ) → ℚ) : NRState 1 := ⟨xzero1, obj xzero1⟩

/-- Observer for 1-D runs: final `x_min[0]`, iterations executed, and
whether the run raised. -/
def runObs (r : Except Unit ((Fin 1 → ℚ) × ℕ)) : ℚ × ℕ × Bool :=
  match r with
  | .ok (x, c) => (x 0, c, false)
  | .error _ => (0, 0, true)

/-- Observer for a single 1-D iteration: committed `x_min[0]` and `f_min`,
the break flag, the probe count, and whether the iteration raised. -/
def stepObs (r : Except Unit (NRState 1 × Bool × ℕ)) : ℚ × ℚ × Bool × ℕ × Bool :=
  match r with
  | .ok (st, b, k) => (st.x_min 0, st.f_min, b, k, false)
  | .error _ => (0, 0, false, 0, true)

/-! ## A store-level model (for the aliasing / frame claims)

The functional embedding above cannot express *which array object* a write
lands in, so the frame claims are settled against this second, store-level
translation of the same source lines.  A `Heap` is the list of array
buffers allocated so far; a NumPy array is identified by its allocation
index.  All mutation goes through `Heap.writeIdx` / `Heap.setBuf`, which
mirror `buf[i] = q` and `buf[:] = v`. -/

abbrev Heap : Type := List (List ℚ)

/-- The contents of buffer `p`. -/
def Heap.getBuf (h : Heap) (p : ℕ) : List ℚ := h.getD p []

/-- `buf_p[i]`. -/
def Heap.readIdx (h : Heap) (p i : ℕ) : ℚ := (h.getBuf p).getD i 0

/-- `buf_p[i] = q`. -/
def Heap.writeIdx (h : Heap) (p i : ℕ) (q : ℚ) : Heap :=
  h.set p ((h.getBuf p).set i q)

/-- `buf_p[:] = v` (whole-buffer overwrite). -/
def Heap.setBuf (h : Heap) (p : ℕ) (v : List ℚ) : Heap := h.set p v

/-- `for i in ...: buf_p[i] = v i` — the element-wise copy loop of source
lines 55–56 and the vectorised slice assignments of lines 71, 77, 84
and 89–92. -/
def writeVecH (p : ℕ) (v : ℕ → ℚ) : List ℕ → Heap → Heap
  | [], h => h
  | i :: rest, h => writeVecH p v rest (h.writeIdx p i (v i))

/-- Store-level `num_grad` (source lines 100–121).  `px` is the buffer the
caller passes as `x`, `pgrad` the output buffer `grad`.  The working buffer
`x_grad` the caller also passes is dead: `x_grad = x[:]` rebinds the local
name to a view of buffer `px`, so the write `x_grad[i] = xi + step_now`
lands in `px` and the objective is evaluated on the current content of
`px`. -/
def num_gradH (obj : List ℚ → ℚ) (grad_step f0 : ℚ) (px pgrad : ℕ) :
    List ℕ → Heap → Heap
  | [], h => h
  | i :: rest, h =>
    let xi := h.readIdx px i
    let s := step_now grad_step xi
    let h1 := h.writeIdx px i (xi + s)
    let h2 := h1.writeIdx pgrad i ((obj (h1.getBuf px) - f0) / s)
    num_gradH obj grad_step f0 px pgrad rest h2

/-- `hess[:, i] = (grad_hess - grad) / step_now` (source line 149); the
`dim × dim` buffer `phess` is stored row-major, entry `(j, i)` at offset
`j * dim + i`. -/
def hessColWriteH (phess pgrad_hess pgrad : ℕ) (dim i : ℕ) (s : ℚ) :
    List ℕ → Heap → Heap
  | [], h => h
  | j :: rest, h =>
    hessColWriteH phess pgrad_hess pgrad dim i s rest
      (h.writeIdx phess (j * dim + i)
        ((h.readIdx pgrad_hess j - h.readIdx pgrad j) / s))

/-- Store-level `num_hess` (source lines 124–149): `x_hess[:] = x[:]` is a
genuine copy into the `px_hess` buffer, the nested `num_grad` then mutates
`px_hess` (not `px`) and fills `pgrad_hess`. -/
def num_hessH (obj : List ℚ → ℚ) (grad_step : ℚ)
    (px pgrad phess px_hess pgrad_hess dim : ℕ) : List ℕ → Heap → Heap
  | [], h => h
  | i :: rest, h =>
    let xi := h.readIdx px i
    let s := step_now grad_step xi
    let h1 := h.setBuf px_hess (h.getBuf px)
    let h2 := h1.writeIdx px_hess i (xi + s)
    let f0 := obj (h2.getBuf px_hess)
    let h3 := num_gradH obj grad_step f0 px_hess pgrad_hess (List.range dim) h2
    let h4 := hessColWriteH phess pgrad_hess pgrad dim i s (List.range dim) h3
    num_hessH obj grad_step px pgrad phess px_hess pgrad_hess dim rest h4

/-- Matrix view of the row-major `hess` buffer. -/
def bufMatrix (l : List ℚ) (dim : ℕ) : Matrix (Fin dim) (Fin dim) ℚ :=
  Matrix.of fun j k => l.getD ((j : ℕ) * dim + (k : ℕ)) 0

/-- Vector view of a buffer. -/
def bufVec (l : List ℚ) (dim : ℕ) : Fin dim → ℚ := fun j => l.getD (j : ℕ) 0

/-- One store-level outer iteration (source lines 62–93).  Returns the store
after the iteration together with `none` if `np.linalg.inv` raised on a
singular Hessian, or `some (f_min committed, whether the break was
taken)`. -/
def nr_stepH (obj : List ℚ → ℚ) (grad_step tol_fun tol_x : ℚ) (dim : ℕ)
    (pxmin pxnow pxhess pgrad pgradhess phess : ℕ) (f_min : ℚ)
    (last : Bool) (h : Heap) : Heap × Option (ℚ × Bool) :=
  let h1 := num_gradH obj grad_step f_min pxmin pgrad (List.range dim) h
  let h2 := num_hessH obj grad_step pxmin pgrad phess pxhess pgradhess dim
    (List.range dim) h1
  let hmat := bufMatrix (h2.getBuf phess) dim
  if hmat.det = 0 then (h2, none) else
  let d := List.ofFn ((-(np_sign hmat.det)) •
    (np_inv hmat).mulVec (bufVec (h2.getBuf pgrad) dim))
  let h3 := writeVecH pxnow (fun i => h2.readIdx pxmin i + d.getD i 0)
    (List.range dim) h2
  let f_now := obj (h3.getBuf pxnow)
  if np_abs (f_now - f_min) < tol_fun ∨
      ((List.range dim).map fun i =>
        np_abs (h3.readIdx pxnow i - h3.readIdx pxmin i)).foldr np_fmax 0
        < tol_x ∨ last = true then
    (writeVecH pxmin (fun i => h3.readIdx pxnow i) (List.range dim) h3,
      some (f_now, true))
  else if f_min ≤ f_now then
    let xs : List ℚ := (List.range dim).map fun i =>
      (1/2) * (h3.readIdx pxmin i + h3.readIdx pxnow i)
    let f_step := obj xs
    if f_step < f_now then
      let h4 := writeVecH pxnow (fun i => xs.getD i 0) (List.range dim) h3
      (writeVecH pxmin (fun i => h4.readIdx pxnow i) (List.range dim) h4,
        some (f_step, false))
    else
      (writeVecH pxmin (fun i => h3.readIdx pxnow i) (List.range dim) h3,
        some (f_now, false))
  else
    (writeVecH pxmin (fun i => h3.readIdx pxnow i) (List.range dim) h3,
      some (f_now, false))

/-- The store-level `for it in range(max_iter)` loop; the Bool records
whether the run raised. -/
def nr_loopH (obj : List ℚ → ℚ) (grad_step tol_fun tol_x : ℚ) (dim : ℕ)
    (pxmin pxnow pxhess pgrad pgradhess phess : ℕ) (max_iter : ℕ) :
    ℕ → ℕ → ℚ → Heap → Heap × Bool
  | 0, _, _, h => (h, false)
  | m + 1, it, fm, h =>
    match nr_stepH obj grad_step tol_fun tol_x dim pxmin pxnow pxhess pgrad
      pgradhess phess fm (decide (max_iter ≤ it + 1)) h with
    | (h', none) => (h', true)
    | (h', some (_, true)) => (h', false)
    | (h', some (fm', false)) =>
      nr_loopH obj grad_step tol_fun tol_x dim pxmin pxnow pxhess pgrad
        pgradhess phess max_iter m (it + 1) fm' h'

/-- Store-level `newton_raphson` (source lines 29–95).  Lines 46–52 allocate
seven fresh zero buffers (`x_min, x_now, x_grad, x_hess, grad, grad_hess,
hess` — `x_grad` is never written, being dead inside `num_grad`); lines
55–56 copy the caller's `x0` buffer element-wise into `x_min`; line 95
returns the `x_min` buffer.  Result: the final store, and the returned
buffer id (or an error if a singular Hessian raised). -/
def nrAllocH (h0 : Heap) (dim : ℕ) : Heap :=
  h0 ++ [List.replicate dim 0, List.replicate dim 0, List.replicate dim 0,
    List.replicate dim 0, List.replicate dim 0, List.replicate dim 0,
    List.replicate (dim * dim) 0]

/-- Lines 46–56: allocate the seven working buffers and copy the caller's
`x0` buffer element-wise into the fresh `x_min` buffer (id `h0.length`). -/
def nrInitH (h0 : Heap) (px0 dim : ℕ) : Heap :=
  writeVecH h0.length (fun i => (nrAllocH h0 dim).readIdx px0 i)
    (List.range dim) (nrAllocH h0 dim)

def newton_raphsonH (obj : List ℚ → ℚ) (max_iter : ℕ)
    (grad_step tol_fun tol_x : ℚ) (h0 : Heap) (px0 dim : ℕ) :
    Heap × Except Unit ℕ :=
  let h8 := nrInitH h0 px0 dim
  let f_min := obj (h8.getBuf h0.length)
  match nr_loopH obj grad_step tol_fun tol_x dim h0.length (h0.length + 1)
    (h0.length + 3) (h0.length + 4) (h0.length + 5) (h0.length + 6)
    max_iter max_iter 0 f_min h8 with
  | (hf, true) => (hf, .error ())
  | (hf, false) => (hf, .ok h0.length)

/-! ## General lemmas -/

theorem np_fmax_eq_max (a b : ℚ) : np_fmax a b = max a b := (max_def a b).symm

theorem np_abs_eq_abs (q : ℚ) : np_abs q = |q| := by
  by_cases h : q < 0
  · rw [np_abs, if_pos h, abs_of_neg h]
  · rw [np_abs, if_neg h, abs_of_nonneg (le_of_not_lt h)]

theorem pertUpTo_apply_of_ge {gs : ℚ} {x : Fin n → ℚ} {k : ℕ} {j : Fin n}
    (h : k ≤ (j : ℕ)) : pertUpTo gs x k j = x j := by
  simp [pertUpTo, Nat.not_lt.mpr h]

theorem pertUpTo_apply_of_lt {gs : ℚ} {x : Fin n → ℚ} {k : ℕ} {j : Fin n}
    (h : (j : ℕ) < k) : pertUpTo gs x k j = x j + step_now gs (x j) := by
  simp [pertUpTo, h]

theorem pertUpTo_zero (gs : ℚ) (x : Fin n → ℚ) : pertUpTo gs x 0 = x := by
  funext j; simp [pertUpTo]

theorem pertUpTo_succ {gs : ℚ} {x : Fin n → ℚ} {k : ℕ} (hk : k < n) :
    Function.update (pertUpTo gs x k) ⟨k, hk⟩
      (x ⟨k, hk⟩ + step_now gs (x ⟨k, hk⟩)) = pertUpTo gs x (k + 1) := by
  funext j
  by_cases hj : j = ⟨k, hk⟩
  · subst hj
    rw [Function.update_same, pertUpTo_apply_of_lt (Nat.lt_succ_self k)]
  · rw [Function.update_noteq hj]
    have hjk : (j : ℕ) ≠ k := fun h => hj (Fin.ext h)
    by_cases hlt : (j : ℕ) < k
    · rw [pertUpTo_apply_of_lt hlt, pertUpTo_apply_of_lt (Nat.lt_succ_of_lt hlt)]
    · rw [pertUpTo_apply_of_ge (Nat.le_of_not_lt hlt),
        pertUpTo_apply_of_ge (Nat.succ_le_of_lt (Nat.lt_of_le_of_ne
          (Nat.le_of_not_lt hlt) (Ne.symm hjk)))]

/-- Invariant of `num_grad`'s coordinate loop: starting from the state in
which the first `k` coordinates have been processed, the final `x` buffer has
every coordinate perturbed, and the gradient entry for coordinate `i ≥ k` is
the forward difference taken at the point whose coordinates `≤ i` are *all*
perturbed (`pertUpTo (i+1)`) — the view bug accumulates perturbations. -/
theorem num_gradGo_drop (obj : (Fin n → ℚ) → ℚ) (gs f0 : ℚ) (x : Fin n → ℚ) :
    ∀ (m k : ℕ), k + m = n → ∀ g : Fin n → ℚ,
      num_gradGo obj gs f0 ((List.finRange n).drop k) (pertUpTo gs x k) g
      = (pertUpTo gs x n,
         fun i : Fin n => if (i : ℕ) < k then g i
           else (obj (pertUpTo gs x ((i : ℕ) + 1)) - f0) / step_now gs (x i)) := by
  intro m
  induction m with
  | zero =>
    intro k hk g
    subst hk
    rw [List.drop_eq_nil_of_le (by simp)]
    refine congrArg (Prod.mk _) ?_
    funext i
    exact (if_pos (Nat.lt_of_lt_of_eq i.isLt (Nat.add_zero k))).symm
  | succ m ih =>
    intro k hk g
    have hkn : k < n := by omega
    have hdrop : (List.finRange n).drop k
        = ⟨k, hkn⟩ :: (List.finRange n).drop (k + 1) := by
      rw [List.drop_eq_getElem_cons (by simpa using hkn)]
      congr 1
      simp [List.finRange]
    rw [hdrop]
    show num_gradGo obj gs f0 _ _ _ = _
    rw [num_gradGo]
    have hxi : pertUpTo gs x k ⟨k, hkn⟩ = x ⟨k, hkn⟩ :=
      pertUpTo_apply_of_ge (Nat.le_refl k)
    rw [hxi, pertUpTo_succ hkn, ih (k + 1) (by omega)]
    refine congrArg (Prod.mk _) ?_
    funext i
    by_cases hik : (i : ℕ) < k
    · have hne : i ≠ ⟨k, hkn⟩ := by
        intro h
        rw [h] at hik
        exact Nat.lt_irrefl k hik
      rw [if_pos (Nat.lt_succ_of_lt hik), if_pos hik, Function.update_noteq hne]
    · by_cases hik' : (i : ℕ) = k
      · have : i = ⟨k, hkn⟩ := Fin.ext hik'
        subst this
        rw [if_pos (Nat.lt_succ_self _), if_neg hik, Function.update_same]
      · rw [if_neg (by omega), if_neg hik]

/-- Closed form of the `x` buffer after `num_grad`: *every* coordinate ends
up perturbed in place (the caller's array is clobbered). -/
theorem num_grad_fst (obj : (Fin n → ℚ) → ℚ) (x : Fin n → ℚ) (gs f0 : ℚ)
    (g : Fin n → ℚ) :
    (num_grad obj x gs f0 g).1 = fun j => x j + step_now gs (x j) := by
  have h := num_gradGo_drop obj gs f0 x n 0 (by omega) g
  rw [List.drop_zero, pertUpTo_zero] at h
  rw [num_grad, h]
  funext j
  exact pertUpTo_apply_of_lt j.isLt


/-- Closed form of the gradient buffer after `num_grad`: entry `i` is the
forward difference between the objective at `pertUpTo (i+1)` (coordinates
`0..i` all perturbed — not only coordinate `i`) and the supplied baseline.
In particular the result does not depend on the initial content `g` of the
`grad` buffer. -/
theorem num_grad_snd (obj : (Fin n → ℚ) → ℚ) (x : Fin n → ℚ) (gs f0 : ℚ)
    (g : Fin n → ℚ) :
    (num_grad obj x gs f0 g).2
      = fun i : Fin n => (obj (pertUpTo gs x ((i : ℕ) + 1)) - f0) / step_now gs (x i) := by
  have h := num_gradGo_drop obj gs f0 x n 0 (by omega) g
  rw [List.drop_zero, pertUpTo_zero] at h
  rw [num_grad, h]
  funext i
  simp

/-- What `num_hessGo` leaves in `hess[j, i]`: the closed-form column entry
as soon as `i` belongs to the remaining index list, the previous content
otherwise.  The entry does not depend on the threaded `grad_hess` content
because `num_grad` overwrites its whole gradient buffer
(`num_grad_snd`). -/
theorem num_hessGo_apply (obj : (Fin n → ℚ) → ℚ) (gs : ℚ) (x grad : Fin n → ℚ) :
    ∀ (l : List (Fin n)) (gh : Fin n → ℚ) (H : Matrix (Fin n) (Fin n) ℚ)
      (j i : Fin n),
      (num_hessGo obj gs x grad l gh H).2 j i
        = if i ∈ l then hessCol obj gs x grad j i else H j i := by
  intro l
  induction l with
  | nil => intro gh H j i; simp [num_hessGo]
  | cons a rest ih =>
    intro gh H j i
    rw [num_hessGo]
    rw [ih]
    by_cases hmem : i ∈ rest
    · rw [if_pos hmem, if_pos (List.mem_cons_of_mem a hmem)]
    · rw [if_neg hmem]
      by_cases hia : i = a
      · subst hia
        rw [if_pos (List.mem_cons_self i rest)]
        show (if i = i then _ else H j i) = hessCol obj gs x grad j i
        rw [if_pos rfl, hessCol, num_grad_snd]
      · rw [if_neg (by simp [hia, hmem])]
        show (if i = a then _ else H j i) = H j i
        rw [if_neg hia]

/-- Every entry of the matrix produced by `num_hess` is the closed-form
column entry, irrespective of the initial `grad_hess` and `hess` buffer
contents. -/
theorem num_hess_snd_apply (obj : (Fin n → ℚ) → ℚ) (x : Fin n → ℚ) (gs : ℚ)
    (grad gh : Fin n → ℚ) (H : Matrix (Fin n) (Fin n) ℚ) (j i : Fin n) :
    (num_hess obj x gs grad gh H).2 j i = hessCol obj gs x grad j i := by
  rw [num_hess, num_hessGo_apply, if_pos (List.mem_finRange i)]

/-- When the Hessian determinant is nonzero and the convergence check fails,
the iteration unconditionally commits the line-search block's candidate as
the new `(x_min, f_min)` (source lines 91–93). -/
theorem nr_step_commit (obj : (Fin n → ℚ) → ℚ) (gs tf tx : ℚ) (last : Bool)
    (st : NRState n) (hdet : hess_detv obj gs st ≠ 0)
    (hstop : stop_check obj gs tf tx last st = false) :
    nr_step obj gs tf tx last st
      = .ok (⟨(ls_result obj gs st).1.1, (ls_result obj gs st).1.2⟩, false,
          (ls_result obj gs st).2) := by
  simp [nr_step, hdet, hstop]

/-- The loop executes at most `fuel` iterations. -/
theorem nr_loop_count_le (obj : (Fin n → ℚ) → ℚ) (gs tf tx : ℚ) (mi : ℕ) :
    ∀ (fuel it : ℕ) (st : NRState n) (r : NRState n) (c : ℕ),
      nr_loop obj gs tf tx mi fuel it st = .ok (r, c) → c ≤ fuel := by
  intro fuel
  induction fuel with
  | zero =>
    intro it st r c h
    rw [nr_loop] at h
    cases h
    exact Nat.le_refl 0
  | succ m ih =>
    intro it st r c h
    rw [nr_loop] at h
    cases hstep : nr_step obj gs tf tx (decide (mi ≤ it + 1)) st with
    | error e => simp only [hstep] at h; exact Except.noConfusion h
    | ok out =>
      obtain ⟨st', b, k⟩ := out
      simp only [hstep] at h
      cases b with
      | true =>
        simp only [Except.ok.injEq, Prod.mk.injEq] at h
        omega
      | false =>
        cases hrec : nr_loop obj gs tf tx mi m (it + 1) st' with
        | error e => simp only [hrec] at h; exact Except.noConfusion h
        | ok out' =>
          obtain ⟨stf, c'⟩ := out'
          simp only [hrec, Except.ok.injEq, Prod.mk.injEq] at h
          have := ih (it + 1) st' stf c' hrec
          omega

/-- With at least one unit of fuel, a successful loop run executes at least
one iteration. -/
theorem nr_loop_count_pos (obj : (Fin n → ℚ) → ℚ) (gs tf tx : ℚ) (mi : ℕ)
    (m it : ℕ) (st : NRState n) (r : NRState n) (c : ℕ)
    (h : nr_loop obj gs tf tx mi (m + 1) it st = .ok (r, c)) : 1 ≤ c := by
  rw [nr_loop] at h
  cases hstep : nr_step obj gs tf tx (decide (mi ≤ it + 1)) st with
  | error e => simp only [hstep] at h; exact Except.noConfusion h
  | ok out =>
    obtain ⟨st', b, k⟩ := out
    simp only [hstep] at h
    cases b with
    | true =>
      simp only [Except.ok.injEq, Prod.mk.injEq] at h
      omega
    | false =>
      cases hrec : nr_loop obj gs tf tx mi m (it + 1) st' with
      | error e => simp only [hrec] at h; exact Except.noConfusion h
      | ok out' =>
        obtain ⟨stf, c'⟩ := out'
        simp only [hrec, Except.ok.injEq, Prod.mk.injEq] at h
        omega

/-! ## Frame lemmas for the store-level model -/

theorem getBuf_writeIdx_ne (h : Heap) (p i : ℕ) (q : ℚ) {r : ℕ} (hr : r ≠ p) :
    (h.writeIdx p i q).getBuf r = h.getBuf r := by
  simp only [Heap.writeIdx, Heap.getBuf, List.getD_eq_getElem?_getD,
    List.getElem?_set_ne (Ne.symm hr)]

theorem getBuf_setBuf_ne (h : Heap) (p : ℕ) (v : List ℚ) {r : ℕ}
    (hr : r ≠ p) : (h.setBuf p v).getBuf r = h.getBuf r := by
  simp only [Heap.setBuf, Heap.getBuf, List.getD_eq_getElem?_getD,
    List.getElem?_set_ne (Ne.symm hr)]

theorem writeVecH_getBuf_ne (p : ℕ) (v : ℕ → ℚ) {r : ℕ} (hr : r ≠ p) :
    ∀ (l : List ℕ) (h : Heap), (writeVecH p v l h).getBuf r = h.getBuf r := by
  intro l
  induction l with
  | nil => intro h; rfl
  | cons i rest ih =>
    intro h
    rw [writeVecH, ih, getBuf_writeIdx_ne _ _ _ _ hr]

theorem num_gradH_getBuf_ne (obj : List ℚ → ℚ) (gs f0 : ℚ) (px pgrad : ℕ)
    {r : ℕ} (hr1 : r ≠ px) (hr2 : r ≠ pgrad) :
    ∀ (l : List ℕ) (h : Heap),
      (num_gradH obj gs f0 px pgrad l h).getBuf r = h.getBuf r := by
  intro l
  induction l with
  | nil => intro h; rfl
  | cons i rest ih =>
    intro h
    rw [num_gradH, ih, getBuf_writeIdx_ne _ _ _ _ hr2,
      getBuf_writeIdx_ne _ _ _ _ hr1]

theorem hessColWriteH_getBuf_ne (phess pgh pg dim i : ℕ) (s : ℚ) {r : ℕ}
    (hr : r ≠ phess) :
    ∀ (l : List ℕ) (h : Heap),
      (hessColWriteH phess pgh pg dim i s l h).getBuf r = h.getBuf r := by
  intro l
  induction l with
  | nil => intro h; rfl
  | cons j rest ih =>
    intro h
    rw [hessColWriteH, ih, getBuf_writeIdx_ne _ _ _ _ hr]

theorem num_hessH_getBuf_ne (obj : List ℚ → ℚ) (gs : ℚ)
    (px pgrad phess pxh pgh dim : ℕ) {r : ℕ}
    (hr1 : r ≠ pxh) (hr2 : r ≠ pgh) (hr3 : r ≠ phess) :
    ∀ (l : List ℕ) (h : Heap),
      (num_hessH obj gs px pgrad phess pxh pgh dim l h).getBuf r
        = h.getBuf r := by
  intro l
  induction l with
  | nil => intro h; rfl
  | cons i rest ih =>
    intro h
    rw [num_hessH, ih, hessColWriteH_getBuf_ne _ _ _ _ _ _ hr3,
      num_gradH_getBuf_ne obj gs _ pxh pgh hr1 hr2,
      getBuf_writeIdx_ne _ _ _ _ hr1, getBuf_setBuf_ne _ _ _ hr1]

/-- A single store-level iteration only writes into the seven working
buffers: any other buffer keeps its contents. -/
theorem nr_stepH_getBuf_ne (obj : List ℚ → ℚ) (gs tf tx : ℚ) (dim : ℕ)
    (pxmin pxnow pxhess pgrad pgradhess phess : ℕ) (fm : ℚ) (last : Bool)
    {r : ℕ} (hr1 : r ≠ pxmin) (hr2 : r ≠ pxnow) (hr3 : r ≠ pxhess)
    (hr4 : r ≠ pgrad) (hr5 : r ≠ pgradhess) (hr6 : r ≠ phess) (h : Heap) :
    (nr_stepH obj gs tf tx dim pxmin pxnow pxhess pgrad pgradhess phess fm
      last h).1.getBuf r = h.getBuf r := by
  unfold nr_stepH
  dsimp only
  split
  · rw [num_hessH_getBuf_ne _ _ _ _ _ _ _ _ hr3 hr5 hr6,
      num_gradH_getBuf_ne _ _ _ _ _ hr1 hr4]
  · split
    · rw [writeVecH_getBuf_ne _ _ hr1, writeVecH_getBuf_ne _ _ hr2,
        num_hessH_getBuf_ne _ _ _ _ _ _ _ _ hr3 hr5 hr6,
        num_gradH_getBuf_ne _ _ _ _ _ hr1 hr4]
    · split
      · split
        · rw [writeVecH_getBuf_ne _ _ hr1, writeVecH_getBuf_ne _ _ hr2,
            writeVecH_getBuf_ne _ _ hr2,
            num_hessH_getBuf_ne _ _ _ _ _ _ _ _ hr3 hr5 hr6,
            num_gradH_getBuf_ne _ _ _ _ _ hr1 hr4]
        · rw [writeVecH_getBuf_ne _ _ hr1, writeVecH_getBuf_ne _ _ hr2,
            num_hessH_getBuf_ne _ _ _ _ _ _ _ _ hr3 hr5 hr6,
            num_gradH_getBuf_ne _ _ _ _ _ hr1 hr4]
      · rw [writeVecH_getBuf_ne _ _ hr1, writeVecH_getBuf_ne _ _ hr2,
          num_hessH_getBuf_ne _ _ _ _ _ _ _ _ hr3 hr5 hr6,
          num_gradH_getBuf_ne _ _ _ _ _ hr1 hr4]

theorem nr_loopH_getBuf_ne (obj : List ℚ → ℚ) (gs tf tx : ℚ) (dim : ℕ)
    (pxmin pxnow pxhess pgrad pgradhess phess : ℕ) (mi : ℕ) {r : ℕ}
    (hr1 : r ≠ pxmin) (hr2 : r ≠ pxnow) (hr3 : r ≠ pxhess)
    (hr4 : r ≠ pgrad) (hr5 : r ≠ pgradhess) (hr6 : r ≠ phess) :
    ∀ (fuel it : ℕ) (fm : ℚ) (h : Heap),
      (nr_loopH obj gs tf tx dim pxmin pxnow pxhess pgrad pgradhess phess mi
        fuel it fm h).1.getBuf r = h.getBuf r := by
  intro fuel
  induction fuel with
  | zero => intro it fm h; rfl
  | succ m ih =>
    intro it fm h
    have hstep := nr_stepH_getBuf_ne obj gs tf tx dim pxmin pxnow pxhess
      pgrad pgradhess phess fm (decide (mi ≤ it + 1)) hr1 hr2 hr3 hr4 hr5
      hr6 h
    rw [nr_loopH]
    cases hres : nr_stepH obj gs tf tx dim pxmin pxnow pxhess pgrad pgradhess
      phess fm (decide (mi ≤ it + 1)) h with
    | mk h' o =>
      rw [hres] at hstep
      cases o with
      | none => exact hstep
      | some p =>
        obtain ⟨fm', b⟩ := p
        cases b with
        | true => exact hstep
        | false => rw [ih (it + 1) fm' h', hstep]

/-- The initialisation writes only into the fresh `x_min` buffer, so the
caller's buffer is untouched by it. -/
theorem nrInitH_getBuf_lt (h0 : Heap) (px0 dim : ℕ) (hp : px0 < h0.length) :
    (nrInitH h0 px0 dim).getBuf px0 = h0.getBuf px0 := by
  rw [nrInitH, writeVecH_getBuf_ne _ _ (by omega)]
  simp only [nrAllocH, Heap.getBuf, List.getD_eq_getElem?_getD,
    List.getElem?_append_left hp]

/-! ## Evaluation helpers for concrete inputs -/

theorem finRange_one : List.finRange 1 = [0] := rfl

theorem finRange_two : List.finRange 2 = [0, 1] := rfl

/-! ## The claims -/

/-- C1: the claim states that `num_grad` writes
`grad[i] = (f(x_perturbed) - f0)/s_i` with `x_perturbed` differing from the
unperturbed baseline `x` in coordinate `i` only.  This is false: because
`x_grad = x[:]` creates a view, the perturbations accumulate.  At
`f(v) = v₀ + v₁`, `x = (0,0)`, `h = 1` (so `s_i = 1`), the code stores
`grad[1] = f(1,1) - f(0,0) = 2`, while the claimed formula gives
`f(0,1) - f(0,0) = 1`. -/
theorem C1_num_grad_not_single_coordinate :
    (num_grad fC1 xzero2 1 (fC1 xzero2) (fun _ => 0)).2 1 = 2 ∧
    (fC1 (Function.update xzero2 1 (xzero2 1 + step_now 1 (xzero2 1)))
        - fC1 xzero2) / step_now 1 (xzero2 1) = 1 := by
  constructor
  · norm_num [num_grad, finRange_two, num_gradGo, fC1, xzero2, step_now,
      np_fmax, Function.update]
  · norm_num [fC1, xzero2, step_now, np_fmax, Function.update]

/-- C2: the claim states `num_grad` has no side effect beyond writing
`grad` and that its scratch vector is never aliased with the caller's
input.  This is false: `x_grad = x[:]` aliases the caller's array, so on
exit *every* coordinate of `x` has been overwritten with `x_j + s_j`
(first conjunct, the general closed form), and concretely at
`f(v) = v₀·v₁ + v₀`, `x = (0,0)`, `h = 1` the caller's buffer entry 0 ends
at `1` although it was `0` on entry. -/
theorem C2_num_grad_clobbers_input :
    (∀ (m : ℕ) (obj : (Fin m → ℚ) → ℚ) (x : Fin m → ℚ) (gs f0 : ℚ)
        (g : Fin m → ℚ),
        (num_grad obj x gs f0 g).1 = fun j => x j + step_now gs (x j)) ∧
    ((num_grad fC2 xzero2 1 (fC2 xzero2) (fun _ => 0)).1 0 = 1 ∧
      xzero2 0 = 0) := by
  refine ⟨fun m obj x gs f0 g => num_grad_fst obj x gs f0 g, ?_,
    by norm_num [xzero2]⟩
  norm_num [num_grad, finRange_two, num_gradGo, fC2, xzero2, step_now,
    np_fmax, Function.update]

/-- C3: the claim states the loop stops at the first iteration in which
`|f_now - f_min| < tol_fun` or `max|x_now - x_min| < tol_x` (or the counter
reaches `max_iter - 1`).  Reading `x_min` as the committed state (the spec's
"current best point"), this is false: the code compares `x_now` against the
*perturbed* `x_min` buffer.  Concretely (`fC3`, `x0 = 0`, `h = 1`,
`tol_fun = 1/1000`, `tol_x = 1/2`): at iteration 0 the candidate is `1/4`,
so `max|x_now - x_min| = 1/4 < 1/2` holds and the claim says the loop stops
after one iteration — but the run executes two iterations. -/
theorem C3_stop_check_uses_perturbed_xmin :
    runObs (newton_raphson fC3 5 1 (1/1000) (1/2) xzero1) = (1/4, 2, false) ∧
    amax (x_now_of fC3 1 (st0 fC3) - (st0 fC3).x_min) = 1/4 ∧
    ((1/4 : ℚ) < 1/2) := by
  refine ⟨?_, ?_, by norm_num⟩ <;>
    norm_num [runObs, newton_raphson, nr_loop, nr_step, stop_check, ls_result,
      x_now_of, f_now_of, d_dir, hess_detv, hess_now, np_inv, num_hess,
      num_hessGo, num_grad, num_gradGo, iterGrad, x_min_pert, grad_now, amax,
      np_abs, np_sign, np_fmax, step_now, x_step_of, f_step_of,
      Function.update, st0, xzero1, fC3, Matrix.det_fin_one,
      Matrix.adjugate_fin_one, Matrix.mulVec, Matrix.dotProduct,
      Fin.sum_univ_one, Matrix.of_apply, Matrix.smul_apply, Pi.smul_apply,
      smul_eq_mul, decide_eq_true_eq, finRange_one, Pi.add_apply, Pi.sub_apply]

/-- C4: at the end of every non-terminating outer iteration the code
unconditionally commits the line-search block's candidate as
`(x_min, f_min)` (first conjunct), even when it is worse than the previous
best — concretely, from `(x0, f_min) = (0, 0)` with objective `fC4` the
first iteration commits `(x_min, f_min) = (-3, 7)` with `7 > 0`, so the
committed `f_min` sequence is not monotone (second conjunct). -/
theorem C4_unconditional_commit :
    (∀ (m : ℕ) (obj : (Fin m → ℚ) → ℚ) (gs tf tx : ℚ) (last : Bool)
        (st : NRState m), hess_detv obj gs st ≠ 0 →
        stop_check obj gs tf tx last st = false →
        nr_step obj gs tf tx last st
          = .ok (⟨(ls_result obj gs st).1.1, (ls_result obj gs st).1.2⟩,
              false, (ls_result obj gs st).2)) ∧
    (stepObs (nr_step fC4 1 (1/1000) (1/1000) false (st0 fC4))
        = (-3, 7, false, 1, false) ∧ (st0 fC4).f_min = 0 ∧ (0:ℚ) < 7) := by
  refine ⟨fun m obj gs tf tx last st hdet hstop =>
    nr_step_commit obj gs tf tx last st hdet hstop, ?_, ?_, by norm_num⟩
  · norm_num [stepObs, nr_step, stop_check, ls_result, x_now_of, f_now_of,
      d_dir, hess_detv, hess_now, np_inv, num_hess, num_hessGo, num_grad,
      num_gradGo, iterGrad, x_min_pert, grad_now, amax, np_abs, np_sign,
      np_fmax, step_now, x_step_of, f_step_of, Function.update, st0, xzero1,
      fC4, Matrix.det_fin_one, Matrix.adjugate_fin_one, Matrix.mulVec,
      Matrix.dotProduct, Fin.sum_univ_one, Matrix.of_apply, Matrix.smul_apply,
      Pi.smul_apply, smul_eq_mul, decide_eq_true_eq, finRange_one,
      Pi.add_apply, Pi.sub_apply]
  · norm_num [st0, fC4, xzero1]

/-- Witness for C4: the unconditional-commit branch applied at the concrete
non-converging first iteration of the `fC4` run. -/
theorem C4_unconditional_commit_witness :
    nr_step fC4 1 (1/1000) (1/1000) false (st0 fC4)
      = .ok (⟨(ls_result fC4 1 (st0 fC4)).1.1,
          (ls_result fC4 1 (st0 fC4)).1.2⟩, false,
          (ls_result fC4 1 (st0 fC4)).2) :=
  C4_unconditional_commit.1 1 fC4 1 (1/1000) (1/1000) false (st0 fC4)
    (by norm_num [hess_detv, hess_now, np_inv, num_hess, num_hessGo, num_grad,
      num_gradGo, iterGrad, x_min_pert, grad_now, np_fmax, step_now,
      Function.update, st0, xzero1, fC4, Matrix.det_fin_one, finRange_one])
    (by norm_num [stop_check, x_now_of, f_now_of, d_dir, hess_detv, hess_now,
      np_inv, num_hess, num_hessGo, num_grad, num_gradGo, iterGrad,
      x_min_pert, grad_now, amax, np_abs, np_sign, np_fmax, step_now,
      Function.update, st0, xzero1, fC4, Matrix.det_fin_one,
      Matrix.adjugate_fin_one, Matrix.mulVec, Matrix.dotProduct,
      Fin.sum_univ_one, Matrix.of_apply, Matrix.smul_apply, Pi.smul_apply,
      smul_eq_mul, decide_eq_true_eq, finRange_one, Pi.add_apply,
      Pi.sub_apply])

/-- C5: the claim states the probe point is `0.5*(x_min + x_now)`.  Reading
`x_min` as the committed state, this is false: the code probes
`0.5*(x_min_pert + x_now)` where `x_min_pert` is the perturbed buffer.
Concretely (`fC5`, first iteration from `x0 = 0`): the check fails, the
probe branch is taken (`f_now = 7 ≥ 0 = f_min`), the code probes `-1`
(value 9, rejected) whereas the claimed midpoint is `-3/2` (value `1 < 7`,
which the claimed rule would accept), and the iteration commits the
un-probed candidate `(-3, 7)`. -/
theorem C5_probe_uses_perturbed_midpoint :
    stop_check fC5 1 (1/1000) (1/1000) false (st0 fC5) = false ∧
    (st0 fC5).f_min ≤ f_now_of fC5 1 (st0 fC5) ∧
    x_step_of fC5 1 (st0 fC5) 0 = -1 ∧
    (1/2) * ((st0 fC5).x_min 0 + x_now_of fC5 1 (st0 fC5) 0) = -(3/2) ∧
    fC5 (fun _ => -(3/2)) < f_now_of fC5 1 (st0 fC5) ∧
    ¬ f_step_of fC5 1 (st0 fC5) < f_now_of fC5 1 (st0 fC5) ∧
    stepObs (nr_step fC5 1 (1/1000) (1/1000) false (st0 fC5))
      = (-3, 7, false, 1, false) := by
  refine ⟨?_, ?_, ?_, ?_, ?_, ?_, ?_⟩ <;>
    norm_num [stepObs, nr_step, stop_check, ls_result, x_now_of, f_now_of,
      d_dir, hess_detv, hess_now, np_inv, num_hess, num_hessGo, num_grad,
      num_gradGo, iterGrad, x_min_pert, grad_now, amax, np_abs, np_sign,
      np_fmax, step_now, x_step_of, f_step_of, Function.update, st0, xzero1,
      fC5, Matrix.det_fin_one, Matrix.adjugate_fin_one, Matrix.mulVec,
      Matrix.dotProduct, Fin.sum_univ_one, Matrix.of_apply, Matrix.smul_apply,
      Pi.smul_apply, smul_eq_mul, decide_eq_true_eq, finRange_one,
      Pi.add_apply, Pi.sub_apply]

/-- C6: every entry of the matrix produced by `num_hess` satisfies
`hess[j,i] = (g_pert[j] - grad[j]) / s_i`, where `s_i = max(h·x_i, h)` and
`g_pert` is the Gradient Estimator's output at `x` bumped by `+s_i` in
coordinate `i`, with the objective value at that perturbed point as
baseline; and no symmetrisation is applied — concretely, at
`f(v) = v₀·v₁²`, `x = (0,0)`, `h = 1`, the result has
`hess[0,1] = 1 ≠ 2 = hess[1,0]`. -/
theorem C6_hess_column_formula :
    (∀ (m : ℕ) (obj : (Fin m → ℚ) → ℚ) (x : Fin m → ℚ) (gs : ℚ)
        (grad gh : Fin m → ℚ) (H : Matrix (Fin m) (Fin m) ℚ) (j i : Fin m),
        (num_hess obj x gs grad gh H).2 j i
          = ((num_grad obj (Function.update x i (x i + step_now gs (x i))) gs
                (obj (Function.update x i (x i + step_now gs (x i))))
                (fun _ => 0)).2 j - grad j) / step_now gs (x i)) ∧
    (num_hess fC6 xzero2 1 (fun _ => 0) (fun _ => 0) 0).2 0 1
      ≠ (num_hess fC6 xzero2 1 (fun _ => 0) (fun _ => 0) 0).2 1 0 := by
  constructor
  · intro m obj x gs grad gh H j i
    rw [num_hess_snd_apply, num_grad_snd]
    rfl
  · norm_num [num_hess, finRange_two, num_hessGo, num_grad, num_gradGo, fC6,
      xzero2, step_now, np_fmax, Function.update, Matrix.of_apply]

/-- C7: the claim states the candidate point is `x_now = x_min + d` with
`d = -sign(det H)·H⁻¹g`.  Reading `x_min` as the committed state, this is
false: `num_grad` has already perturbed the `x_min` buffer, so
`x_now = (x_min + s) + d`.  Concretely (`f(v) = v₀²`, `x_min = 0`, `h = 1`):
the code's candidate is `4/5` while `x_min + d = -1/5`. -/
theorem C7_candidate_differs_from_xmin_plus_d :
    x_now_of fsq1 1 (st0 fsq1) 0 = 4/5 ∧
    (st0 fsq1).x_min 0 + d_dir fsq1 1 (st0 fsq1) 0 = -(1/5) := by
  constructor <;>
    norm_num [x_now_of, d_dir, hess_detv, hess_now, np_inv, num_hess,
      num_hessGo, num_grad, num_gradGo, iterGrad, x_min_pert, grad_now,
      np_sign, np_fmax, step_now, Function.update, st0, xzero1, fsq1,
      Matrix.det_fin_one, Matrix.adjugate_fin_one, Matrix.mulVec,
      Matrix.dotProduct, Fin.sum_univ_one, Matrix.of_apply, Matrix.smul_apply,
      Pi.smul_apply, smul_eq_mul, finRange_one, Pi.add_apply]

/-- C8 (counterexample): the claim states a call never raises.  For the
constant objective the estimated Hessian is the zero matrix, and
`np.linalg.inv` raises `LinAlgError` on an exactly singular matrix, so the
call raises instead of returning a vector. -/
theorem C8_singular_hessian_raises :
    newton_raphson fzero1 5 1 (1/1000) (1/1000) xzero1 = .error () := by
  norm_num [newton_raphson, nr_loop, nr_step, stop_check, ls_result,
    x_now_of, f_now_of, d_dir, hess_detv, hess_now, np_inv, num_hess,
    num_hessGo, num_grad, num_gradGo, iterGrad, x_min_pert, grad_now, amax,
    np_abs, np_sign, np_fmax, step_now, x_step_of, f_step_of,
    Function.update, xzero1, fzero1, Matrix.det_fin_one,
    Matrix.adjugate_fin_one, Matrix.mulVec, Matrix.dotProduct,
    Fin.sum_univ_one, Matrix.of_apply, Matrix.smul_apply, Pi.smul_apply,
    smul_eq_mul, decide_eq_true_eq, finRange_one, Pi.add_apply, Pi.sub_apply]

/-- C8 (amended): with `max_iter = k ≥ 1`, any call that completes without
the linear inverse raising performs between 1 and `k` outer iterations and
returns a parameter vector; termination itself is structural (the loop is
fuelled by `k`). -/
theorem C8_iteration_cap (obj : (Fin n → ℚ) → ℚ) (k : ℕ) (gs tf tx : ℚ)
    (x0 : Fin n → ℚ) (r : Fin n → ℚ) (c : ℕ) (hk : 1 ≤ k)
    (h : newton_raphson obj k gs tf tx x0 = .ok (r, c)) : 1 ≤ c ∧ c ≤ k := by
  rw [newton_raphson] at h
  cases hloop : nr_loop obj gs tf tx k k 0 ⟨x0, obj x0⟩ with
  | error e => simp only [hloop] at h; exact Except.noConfusion h
  | ok out =>
    obtain ⟨st, c'⟩ := out
    simp only [hloop, Except.ok.injEq, Prod.mk.injEq] at h
    obtain ⟨h1, h2⟩ := h
    subst h2
    obtain ⟨m, rfl⟩ : ∃ m, k = m + 1 := ⟨k - 1, by omega⟩
    exact ⟨nr_loop_count_pos obj gs tf tx (m + 1) m 0 _ st c' hloop,
      nr_loop_count_le obj gs tf tx (m + 1) (m + 1) 0 _ st c' hloop⟩

/-- Witness for C8: the quadratic run converges in exactly one iteration,
within the cap of 5. -/
theorem C8_iteration_cap_witness : 1 ≤ 1 ∧ 1 ≤ 5 :=
  C8_iteration_cap fsq1 5 1 1 (1/100) xzero1 (fun _ => 4/5) 1 (by norm_num)
    (by norm_num [newton_raphson, nr_loop, nr_step, stop_check, ls_result,
      x_now_of, f_now_of, d_dir, hess_detv, hess_now, np_inv, num_hess,
      num_hessGo, num_grad, num_gradGo, iterGrad, x_min_pert, grad_now, amax,
      np_abs, np_sign, np_fmax, step_now, x_step_of, f_step_of,
      Function.update, xzero1, fsq1, Matrix.det_fin_one,
      Matrix.adjugate_fin_one, Matrix.mulVec, Matrix.dotProduct,
      Fin.sum_univ_one, Matrix.of_apply, Matrix.smul_apply, Pi.smul_apply,
      smul_eq_mul, decide_eq_true_eq, finRange_one, Pi.add_apply,
      Pi.sub_apply, funext_iff, Fin.forall_fin_one])

/-- C9: for every positive base step `h` and every coordinate value `x_i`
(zero and negative included), the per-coordinate step
`s_i = max(h·x_i, h)` used by both estimators satisfies
`s_i ≥ h > 0`, so the finite-difference divisions never divide by zero. -/
theorem C9_step_bounded_below (h xi : ℚ) (hp : 0 < h) :
    0 < step_now h xi ∧ h ≤ step_now h xi := by
  rw [step_now, np_fmax]
  by_cases hc : h * xi ≤ h
  · rw [if_pos hc]
    exact ⟨hp, le_refl h⟩
  · rw [if_neg hc]
    push_neg at hc
    exact ⟨lt_trans hp hc, le_of_lt hc⟩

/-- Witness for C9 at `h = 1`, `x_i = -5` (a negative coordinate). -/
theorem C9_step_bounded_below_witness :
    0 < step_now 1 (-5) ∧ (1:ℚ) ≤ step_now 1 (-5) :=
  C9_step_bounded_below 1 (-5) (by norm_num)

/-- C10: for every store and every in-bounds caller buffer `px0`, the
store-level run leaves the caller's `x0` buffer contents unchanged, and any
returned buffer id is the freshly allocated `x_min` buffer
(`h0.length`), which is distinct from `px0`.  The proof rests on every
write of the run targeting one of the seven freshly allocated buffers. -/
theorem C10_x0_frame (obj : List ℚ → ℚ) (max_iter : ℕ) (gs tf tx : ℚ)
    (h0 : Heap) (px0 dim : ℕ) (hp : px0 < h0.length) :
    (newton_raphsonH obj max_iter gs tf tx h0 px0 dim).1.getBuf px0
        = h0.getBuf px0 ∧
    ∀ r, (newton_raphsonH obj max_iter gs tf tx h0 px0 dim).2 = .ok r →
      r = h0.length ∧ r ≠ px0 := by
  have hframe : ∀ fm, (nr_loopH obj gs tf tx dim h0.length (h0.length + 1)
      (h0.length + 3) (h0.length + 4) (h0.length + 5) (h0.length + 6)
      max_iter max_iter 0 fm (nrInitH h0 px0 dim)).1.getBuf px0
        = h0.getBuf px0 := by
    intro fm
    rw [nr_loopH_getBuf_ne obj gs tf tx dim _ _ _ _ _ _ max_iter
      (by omega) (by omega) (by omega) (by omega) (by omega) (by omega),
      nrInitH_getBuf_lt h0 px0 dim hp]
  unfold newton_raphsonH
  dsimp only
  cases hloop : nr_loopH obj gs tf tx dim h0.length (h0.length + 1)
      (h0.length + 3) (h0.length + 4) (h0.length + 5) (h0.length + 6)
      max_iter max_iter 0 (obj ((nrInitH h0 px0 dim).getBuf h0.length))
      (nrInitH h0 px0 dim) with
  | mk hf b =>
    have h1 := hframe (obj ((nrInitH h0 px0 dim).getBuf h0.length))
    rw [hloop] at h1
    cases b with
    | true => exact ⟨h1, fun r hr => absurd hr (by simp)⟩
    | false =>
      refine ⟨h1, fun r hr => ?_⟩
      simp only [Except.ok.injEq] at hr
      subst hr
      exact ⟨rfl, by omega⟩

/-- Witness for C10: a one-buffer store holding `x0 = [5]`. -/
theorem C10_x0_frame_witness :
    (Heap.getBuf (newton_raphsonH (fun _ => 0) 3 1 1 1 [[5]] 0 1).1 0
        = Heap.getBuf [[5]] 0) ∧
    ∀ r, (newton_raphsonH (fun _ => 0) 3 1 1 1 [[5]] 0 1).2 = .ok r →
      r = List.length [[(5:ℚ)]] ∧ r ≠ 0 :=
  C10_x0_frame (fun _ => 0) 3 1 1 1 [[5]] 0 1 (by simp)

end ConsavNR
